import Mathlib

/-!
Verification development for the tap-appmetrica repository.

The Python sources (src/tap_appmetrica/client.py, streams.py, tap.py) are
shallowly embedded below. Timestamps are modelled as integers (seconds);
a Python timedelta of d days is d * 86400 of these units. Fallible Python
code (KeyError, TypeError, IndexError) is modelled with Except/Option.
Definitions that embed code living outside src/ (the singer-sdk framework
or the backoff library) carry a doc comment starting with
"Modelled from the spec:".
-/

namespace TapAppmetrica

/-- Width, in model time units (seconds), of a Python timedelta of
chunk_days days, as used in client.py lines 98 and 123. -/
def chunkWidth (chunk_days : Int) : Int := chunk_days * 86400

/-- A query-parameter value. Python sends strings and numbers; because of
the walrus expression on client.py line 126 a boolean can also appear. -/
inductive ParamValue where
  | str : String → ParamValue
  | int : Int → ParamValue
  | bool : Bool → ParamValue
deriving DecidableEq

/-- Shallow embedding of AppmetricaStream.get_url_params
(client.py lines 100-131). The strftime rendering of a datetime is
abstracted to the underlying instant (ParamValue.int); this is injective
at second granularity, which is the format used ("%Y-%m-%d %H:%M:%S").
The Python line 126 reads: if limit := self.config.get("limit") is not
None: ... Operator precedence makes the walrus bind limit to the Bool
result of the "is not None" comparison, so the branch stores that Bool,
not the configured value. -/
def get_url_params (application_id : String) (chunk_days : Int)
    (limit_cfg : Option String) (fields : List String)
    (next_page_token : Int) : List (String × ParamValue) :=
  let limit := limit_cfg.isSome
  [("application_id", ParamValue.str application_id),
   ("date_dimension", ParamValue.str "receive"),
   ("date_since", ParamValue.int next_page_token),
   ("date_until", ParamValue.int (next_page_token + chunkWidth chunk_days))]
  ++ (if limit then [("limit", ParamValue.bool limit)] else [])
  ++ [("fields", ParamValue.str (String.intercalate "," fields))]

/-- Python csv.DictReader row construction: the header row gives the keys,
a data row gives the values; when the row is shorter than the header the
missing values are None (the restval default). Extra values beyond the
header go under the restkey None key and are not observable through the
string-keyed get used by the streams, so they are dropped here. -/
def dictRow : List String → List String → List (String × Option String)
  | [], _ => []
  | h :: hs, [] => (h, none) :: dictRow hs []
  | h :: hs, v :: vs => (h, some v) :: dictRow hs vs

/-- Python dict.get on a DictReader row: absent key gives None; a present
key can also hold None (short row). -/
def objGet (row : List (String × Option String)) (key : String) :
    Option String :=
  match row.lookup key with
  | some v => v
  | none => none

/-- Shallow embedding of is_valid_datetime (streams.py lines 20-25).
Whether pendulum.parse succeeds on a given string is a fact about the
pendulum library, not about this repository, so it is abstracted as the
predicate pendulumParseOk. -/
def is_valid_datetime (pendulumParseOk : String → Bool)
    (date_string : String) : Bool :=
  pendulumParseOk date_string

/-- Shallow embedding of EventsStream.parse_response
(streams.py lines 74-82). The response body is modelled as already
line- and comma-tokenized rows (that tokenization is the Python csv
module, not repository code); the first row is the header. A row survives
when obj.get("event_receive_datetime") is truthy (present, not None, not
the empty string) and is_valid_datetime holds of it. -/
def EventsStream_parse_response (pendulumParseOk : String → Bool)
    (rows : List (List String)) : List (List (String × Option String)) :=
  match rows with
  | [] => []
  | header :: data =>
    (data.map (dictRow header)).filter (fun obj =>
      match objGet obj "event_receive_datetime" with
      | some v => !v.isEmpty && is_valid_datetime pendulumParseOk v
      | none => false)

/-- A JSON value, for the stat-stream response bodies. -/
inductive Json where
  | null : Json
  | str : String → Json
  | num : Int → Json
  | arr : List Json → Json
  | obj : List (String × Json) → Json

/-- Object field access, as used by the jsonpath and post_process code. -/
def Json.get : Json → String → Option Json
  | Json.obj fields, k => fields.lookup k
  | _, _ => none

/-- Array index access; anything else has no element. -/
def Json.idx : Json → Nat → Option Json
  | Json.arr xs, i => xs.get? i
  | _, _ => none

/-- Shallow embedding of AppmetricaStatStream.parse_response
(client.py lines 180-190): extract_jsonpath with records_jsonpath
"$.data[*]" yields the elements of the data array of the body. -/
def statStream_parse_response (body : Json) : List Json :=
  match body.get "data" with
  | some (Json.arr xs) => xs
  | _ => []

/-- Shallow embedding of installDevicesStream.post_process
(streams.py lines 165-184): the returned row has the date taken from
row["dimensions"][0]["name"] and install_devices from row["metrics"][0].
The Python subscripts raise on missing keys or indices; that is modelled
by Option. -/
def installDevices_post_process (row : Json) : Option Json := do
  let dims ← row.get "dimensions"
  let d0 ← dims.idx 0
  let name ← d0.get "name"
  let mets ← row.get "metrics"
  let m0 ← mets.idx 0
  return Json.obj [("date", name), ("install_devices", m0)]

/-- The aggregate-stream response body of the spec scenario. -/
def sampleStatBody : Json :=
  Json.obj [("data", Json.arr [Json.obj
    [("dimensions", Json.arr [Json.obj [("name", Json.str "2024-01-01")]]),
     ("metrics", Json.arr [Json.num 42])]])]

/-- Modelled from the spec: get_starting_replication_key_value is
singer-sdk framework code, not in src/. Per the spec lifecycle section,
sync state is read once at stream start from the persisted cursor of a
prior run when present, else from the configured start date; with
neither, the framework yields None. -/
def get_starting_replication_key_value
    (stateCursor start_date : Option String) : Option String :=
  match stateCursor with
  | some c => some c
  | none => start_date

/-- Shallow embedding of the start-value computation on client.py line 77:
pendulum.parse(self.get_starting_replication_key_value(context)).
pendulum.parse applied to None raises a TypeError; successful parsing of
a present string is abstracted (the string is returned). -/
def determine_start (stateCursor start_date : Option String) :
    Except String String :=
  match get_starting_replication_key_value stateCursor start_date with
  | some s => Except.ok s
  | none => Except.error "TypeError: pendulum.parse(None)"

/-- Python str.split() with no argument: split on whitespace runs,
dropping empty pieces. Only the space character is relevant to the
"%Y-%m-%d %H:%M:%S"-shaped values this is applied to. -/
def pySplitWs (s : String) : List String :=
  (s.splitOn " ").filter (fun t => !t.isEmpty)

/-- Shallow embedding of AppmetricaStatStream.get_url_params
(client.py lines 157-178). self.config["start_date"] raises KeyError when
the key is absent, and .split()[0] raises IndexError on a whitespace-only
value; both are modelled with Except.error. -/
def statStream_get_url_params (application_id : String)
    (start_date : Option String) (metrics : String) :
    Except String (List (String × ParamValue)) :=
  match start_date with
  | none => Except.error "KeyError: start_date"
  | some sd =>
    match pySplitWs sd with
    | [] => Except.error "IndexError"
    | d1 :: _ =>
      Except.ok
        [("id", ParamValue.str application_id),
         ("metrics", ParamValue.str metrics),
         ("dimensions", ParamValue.str "ym:i:date"),
         ("date1", ParamValue.str d1),
         ("group", ParamValue.str "day")]

/-- The per-stream configuration each stream class supplies. -/
structure StreamDef where
  name : String
  path : String
  replication_key : String
deriving DecidableEq

/-- Shallow embedding of EventsStream (streams.py lines 28-33). -/
def EventsStream : StreamDef :=
  { name := "events",
    path := "/logs/v1/export/events.csv",
    replication_key := "event_receive_datetime" }

/-- Shallow embedding of InstallationsStream (streams.py lines 85-90). -/
def InstallationsStream : StreamDef :=
  { name := "installations",
    path := "/logs/v1/export/installations.csv",
    replication_key := "install_receive_datetime" }

/-- Shallow embedding of installDevicesStream (streams.py lines 149-154). -/
def installDevicesStream : StreamDef :=
  { name := "install_devices",
    path := "",
    replication_key := "date" }

/-- Shallow embedding of TapAppmetrica.discover_streams
(tap.py lines 40-48): the returned list holds a single EventsStream. -/
def discover_streams : List StreamDef := [EventsStream]

/-- The tap configuration fields. chunk_days is read by client.py but is
not among the properties declared in config_jsonschema. -/
structure TapConfig where
  application_id : Option String
  token : Option String
  start_date : Option String
  limit : Option String
  chunk_days : Option Int

/-- Shallow embedding of validation against TapAppmetrica.config_jsonschema
(tap.py lines 16-38): the declared properties are application_id
(required), token (required), start_date and limit (optional); chunk_days
is not declared, so no check constrains it and a config is accepted
whenever the two required fields are present. -/
def configAccepts (c : TapConfig) : Bool :=
  c.application_id.isSome && c.token.isSome

/-- Shallow embedding of AppmetricaStream.extra_retry_statuses
(client.py line 39): [202] + RESTStream.extra_retry_statuses. -/
def RESTStream_extra_retry_statuses : List Nat := [429]

/-- Modelled from the spec: RESTStream.extra_retry_statuses is the
singer-sdk base-class default, the standard transient status 429; the
subclass prepends the provider-specific 202 (client.py line 39). -/
def extra_retry_statuses : List Nat := [202] ++ RESTStream_extra_retry_statuses

/-- Modelled from the spec: response validation (singer-sdk) treats a
status as retryable when it is a server error (5xx) or listed in
extra_retry_statuses. -/
def retryableStatus (status : Nat) : Bool :=
  decide (status ∈ extra_retry_statuses)
    || (decide (500 ≤ status) && decide (status ≤ 599))

/-- Shallow embedding of AppmetricaStream.backoff_wait_generator
(client.py lines 52-53): backoff.constant(120) yields 120 forever. -/
def backoff_wait_generator : Nat → Int := fun _ => 120

/-- Shallow embedding of AppmetricaStream.backoff_max_tries
(client.py lines 55-56). -/
def backoff_max_tries : Nat := 50

/-- Outcome of one decorated request: the final status with the index of
the attempt that returned it, or a fatal failure after the last try. -/
inductive RetryResult where
  | success : Nat → Nat → RetryResult
  | fatal : Nat → RetryResult
deriving DecidableEq

/-- Modelled from the spec: the retry driver (singer-sdk request_decorator
over the backoff library) re-attempts while the status is retryable, up
to the given number of tries, sleeping backoff_wait_generator between
consecutive attempts; exhausting the tries is a fatal error. responses
gives the status of each attempt; the returned list collects the waits
slept between attempts. -/
def retryCall (responses : Nat → Nat) :
    Nat → Nat → RetryResult × List Int
  | _, 0 => (RetryResult.fatal 0, [])
  | attempt, Nat.succ triesLeft =>
    let s := responses attempt
    if retryableStatus s then
      if triesLeft = 0 then (RetryResult.fatal s, [])
      else
        let rest := retryCall responses (attempt + 1) triesLeft
        (rest.1, backoff_wait_generator attempt :: rest.2)
    else (RetryResult.success s attempt, [])

/-- Shallow embedding of the decorated request: retry from attempt 0 with
backoff_max_tries tries. -/
def request_decorator (responses : Nat → Nat) : RetryResult × List Int :=
  retryCall responses 0 backoff_max_tries

/-- One time window, as carried by the date_since and date_until request
parameters. -/
structure Window where
  date_since : Int
  date_until : Int
deriving DecidableEq

/-- Observable event of one pass through the body of the request_records
loop (client.py lines 86-98): the HTTP request for a window is issued,
the parsed records of the window are yielded, the sync state is written.
Modelled from the spec: the cursor value persisted by
_write_state_message (singer-sdk internals) is the end of the window
that just completed. -/
inductive Event where
  | request : Int → Int → Event
  | yielded : Int → Int → Event
  | writeState : Int → Event
deriving DecidableEq

/-- How a run of request_records ended: the loop condition became false
(completed, with the final cursor), a request failed after exhausting its
retries (aborted, with the cursor of the failed window, whose state was
never written), or the iteration fuel ran out while the loop was still
going (outOfFuel, with the cursor at that point). -/
inductive RunOutcome where
  | completed : Int → RunOutcome
  | aborted : Int → RunOutcome
  | outOfFuel : Int → RunOutcome
deriving DecidableEq

/-- Shallow embedding of AppmetricaStream.request_records
(client.py lines 65-98). page_date starts from the parsed replication
value; now is computed once, before the loop, and is a fixed parameter
here; w is the step chunkWidth chunk_days. Each iteration with
page_date < now prepares and issues the request for
[page_date, page_date + w) (get_url_params, lines 121-124), yields the
parsed records, writes the sync state, and advances page_date by w
(line 98). fails tells, per window start, whether the decorated request
raised after exhausting its retries; a raised request ends the generator
with nothing further executed. fuel bounds the number of iterations so
that non-termination of the unbounded Python while loop is observable as
outOfFuel for every fuel. -/
def requestRecords (fuel : Nat) (page_date now w : Int)
    (fails : Int → Bool) : List Event × RunOutcome :=
  match fuel with
  | 0 => ([], RunOutcome.outOfFuel page_date)
  | Nat.succ fuel' =>
    if page_date < now then
      if fails page_date then
        ([Event.request page_date (page_date + w)],
         RunOutcome.aborted page_date)
      else
        let rest := requestRecords fuel' (page_date + w) now w fails
        (Event.request page_date (page_date + w) ::
           Event.yielded page_date (page_date + w) ::
           Event.writeState (page_date + w) :: rest.1,
         rest.2)
    else ([], RunOutcome.completed page_date)

/-- The three events of one successful window starting at s. -/
def windowEvents (s w : Int) : List Event :=
  [Event.request s (s + w), Event.yielded s (s + w),
   Event.writeState (s + w)]

/-- The event trace of k consecutive successful windows of width w
starting at start. -/
def eventTrace (start w : Int) : Nat → List Event
  | 0 => []
  | Nat.succ k => eventTrace start w k ++ windowEvents (start + (k : Int) * w) w

/-- The sequence of persisted cursor values appearing in a trace. -/
def writesOf (tr : List Event) : List Int :=
  tr.filterMap (fun e =>
    match e with
    | Event.writeState c => some c
    | _ => none)

/-- The windows requested in a trace, in request order. -/
def windowsOf (tr : List Event) : List Window :=
  tr.filterMap (fun e =>
    match e with
    | Event.request s u => some { date_since := s, date_until := u }
    | _ => none)

/-- Whether instant t lies in some window of the list. -/
def coveredBy (ws : List Window) (t : Int) : Bool :=
  ws.any (fun win =>
    decide (win.date_since ≤ t) && decide (t < win.date_until))

theorem eventTrace_succ_left (start w : Int) (k : Nat) :
    eventTrace start w (k + 1)
      = windowEvents start w ++ eventTrace (start + w) w k := by
  induction k with
  | zero => simp [eventTrace]
  | succ k ih =>
    have hstep : eventTrace start w (k + 1 + 1)
        = eventTrace start w (k + 1) ++ windowEvents (start + ((k + 1 : Nat) : Int) * w) w := rfl
    rw [hstep, ih]
    have harith : start + ((k + 1 : Nat) : Int) * w = start + w + (k : Int) * w := by
      push_cast
      ring
    rw [harith]
    simp [eventTrace, List.append_assoc]

theorem writesOf_append (a b : List Event) :
    writesOf (a ++ b) = writesOf a ++ writesOf b := by
  simp [writesOf, List.filterMap_append]

theorem windowsOf_append (a b : List Event) :
    windowsOf (a ++ b) = windowsOf a ++ windowsOf b := by
  simp [windowsOf, List.filterMap_append]

theorem writesOf_windowEvents (s w : Int) :
    writesOf (windowEvents s w) = [s + w] := by
  simp [writesOf, windowEvents, List.filterMap]

theorem windowsOf_windowEvents (s w : Int) :
    windowsOf (windowEvents s w)
      = [{ date_since := s, date_until := s + w }] := by
  simp [windowsOf, windowEvents, List.filterMap]

theorem writesOf_eventTrace (start w : Int) (k : Nat) :
    writesOf (eventTrace start w k)
      = (List.range k).map (fun (i : Nat) => start + (i : Int) * w + w) := by
  induction k with
  | zero => simp [eventTrace, writesOf]
  | succ k ih =>
    rw [show eventTrace start w (k + 1)
          = eventTrace start w k ++ windowEvents (start + (k : Int) * w) w from rfl,
        writesOf_append, ih, writesOf_windowEvents, List.range_succ]
    simp

theorem windowsOf_eventTrace (start w : Int) (k : Nat) :
    windowsOf (eventTrace start w k)
      = (List.range k).map (fun (i : Nat) =>
          { date_since := start + (i : Int) * w,
            date_until := start + (i : Int) * w + w }) := by
  induction k with
  | zero => simp [eventTrace, windowsOf]
  | succ k ih =>
    rw [show eventTrace start w (k + 1)
          = eventTrace start w k ++ windowEvents (start + (k : Int) * w) w from rfl,
        windowsOf_append, ih, windowsOf_windowEvents, List.range_succ]
    simp

theorem requestRecords_spec (now w : Int) (fails : Int → Bool)
    (hw : 0 < w) :
    ∀ (fuel : Nat) (start : Int), (now - start).toNat < fuel →
    ∃ k : Nat,
      (∀ i : Nat, i < k →
        start + (i : Int) * w < now ∧ fails (start + (i : Int) * w) = false) ∧
      ((start + (k : Int) * w < now ∧ fails (start + (k : Int) * w) = true ∧
        requestRecords fuel start now w fails =
          (eventTrace start w k ++
             [Event.request (start + (k : Int) * w) (start + (k : Int) * w + w)],
           RunOutcome.aborted (start + (k : Int) * w))) ∨
       (now ≤ start + (k : Int) * w ∧
        requestRecords fuel start now w fails =
          (eventTrace start w k,
           RunOutcome.completed (start + (k : Int) * w)))) := by
  intro fuel
  induction fuel with
  | zero =>
    intro start hfuel
    exact absurd hfuel (Nat.not_lt_zero _)
  | succ fuel ih =>
    intro start hfuel
    by_cases hlt : start < now
    · by_cases hf : fails start = true
      · refine ⟨0, ?_, Or.inl ⟨?_, ?_, ?_⟩⟩
        · intro i hi
          exact absurd hi (Nat.not_lt_zero i)
        · simpa using hlt
        · simpa using hf
        · simp [requestRecords, hlt, hf, eventTrace]
      · have hf' : fails start = false := by simpa using hf
        have hfuel' : (now - (start + w)).toNat < fuel := by omega
        obtain ⟨k, hgood, hcase⟩ := ih (start + w) hfuel'
        have harith1 : start + ((k + 1 : Nat) : Int) * w
            = start + w + (k : Int) * w := by
          push_cast
          ring
        refine ⟨k + 1, ?_, ?_⟩
        · intro i hi
          cases i with
          | zero => simpa using ⟨hlt, hf'⟩
          | succ i =>
            have h2 := hgood i (by omega)
            have harith2 : start + ((i + 1 : Nat) : Int) * w
                = start + w + (i : Int) * w := by
              push_cast
              ring
            rw [harith2]
            exact h2
        · have hun : requestRecords (fuel + 1) start now w fails
              = (Event.request start (start + w) ::
                  Event.yielded start (start + w) ::
                  Event.writeState (start + w) ::
                  (requestRecords fuel (start + w) now w fails).1,
                 (requestRecords fuel (start + w) now w fails).2) := by
            simp [requestRecords, hlt, hf']
          rcases hcase with ⟨h1, h2, h3⟩ | ⟨h1, h3⟩
          · left
            refine ⟨by rw [harith1]; exact h1, by rw [harith1]; exact h2, ?_⟩
            rw [hun, h3, harith1, eventTrace_succ_left]
            simp [windowEvents]
          · right
            refine ⟨by rw [harith1]; exact h1, ?_⟩
            rw [hun, h3, harith1, eventTrace_succ_left]
            simp [windowEvents]
    · refine ⟨0, ?_, Or.inr ⟨?_, ?_⟩⟩
      · intro i hi
        exact absurd hi (Nat.not_lt_zero i)
      · simpa using (by omega : now ≤ start)
      · simp [requestRecords, hlt, eventTrace]

theorem coveredBy_append (a b : List Window) (t : Int) :
    coveredBy (a ++ b) t = (coveredBy a t || coveredBy b t) := by
  simp [coveredBy, List.any_append]

theorem coveredBy_range (start w : Int) (hw : 0 < w) (k : Nat) (t : Int) :
    coveredBy ((List.range k).map (fun (i : Nat) =>
        { date_since := start + (i : Int) * w,
          date_until := start + (i : Int) * w + w })) t = true
      ↔ start ≤ t ∧ t < start + (k : Int) * w := by
  induction k with
  | zero =>
    simp [coveredBy]
  | succ k ih =>
    rw [List.range_succ, List.map_append, coveredBy_append]
    have hcast : start + ((k + 1 : Nat) : Int) * w
        = start + ((k : Int) * w + w) := by
      push_cast
      ring
    rw [Bool.or_eq_true, hcast]
    have hone : coveredBy
          [{ date_since := start + (k : Int) * w,
             date_until := start + (k : Int) * w + w }] t = true
        ↔ (start + (k : Int) * w ≤ t ∧ t < start + (k : Int) * w + w) := by
      simp [coveredBy]
    simp only [List.map_cons, List.map_nil]
    rw [hone, ih]
    have hka : 0 ≤ (k : Int) * w :=
      mul_nonneg (Int.natCast_nonneg k) hw.le
    revert hka
    generalize (k : Int) * w = a
    intro hka
    omega

theorem writes_pairwise (start w : Int) (hw : 0 ≤ w) (k : Nat) :
    ((List.range k).map (fun (i : Nat) => start + (i : Int) * w + w)).Pairwise
      (· ≤ ·) := by
  refine List.Pairwise.map _ (fun a b hab => ?_) (List.pairwise_lt_range k)
  have hcast : (a : Int) ≤ (b : Int) := by exact_mod_cast hab.le
  have := mul_le_mul_of_nonneg_right hcast hw
  omega

theorem requestRecords_stuck (now w : Int) (fails : Int → Bool)
    (hw : w ≤ 0) (hf : ∀ c : Int, fails c = false) :
    ∀ (fuel : Nat) (page_date : Int), page_date < now →
      ∃ c : Int,
        (requestRecords fuel page_date now w fails).2
          = RunOutcome.outOfFuel c := by
  intro fuel
  induction fuel with
  | zero =>
    intro p hp
    exact ⟨p, rfl⟩
  | succ fuel ih =>
    intro p hp
    have hstep : p + w < now := by omega
    obtain ⟨c, hc⟩ := ih (p + w) hstep
    refine ⟨c, ?_⟩
    simpa [requestRecords, hp, hf p] using hc

/-- The window and cursor behaviour of a failure-free run of
request_records at starting cursor start, fixed upper bound now and
chunk width chunk_days = d: the loop performs n iterations for some
n > 0, the requested windows are precisely the contiguous,
non-overlapping, strictly increasing intervals with bounds
start + i * w and start + (i + 1) * w for i below n, every window start
except the n-th is below now, the final cursor start + n * w is the
smallest such boundary at or beyond now, the last persisted cursor
equals that final cursor, and the union of the requested windows is
exactly the interval from start up to start + n * w. -/
def WindowCoverage (start now d : Int) : Prop :=
  ∃ n : Nat, 0 < n ∧
    requestRecords ((now - start).toNat + 1) start now (chunkWidth d)
        (fun _ => false)
      = (eventTrace start (chunkWidth d) n,
         RunOutcome.completed (start + (n : Int) * chunkWidth d)) ∧
    windowsOf (eventTrace start (chunkWidth d) n)
      = (List.range n).map (fun (i : Nat) =>
          { date_since := start + (i : Int) * chunkWidth d,
            date_until := start + (i : Int) * chunkWidth d + chunkWidth d }) ∧
    (∀ i : Nat, i < n → start + (i : Int) * chunkWidth d < now) ∧
    now ≤ start + (n : Int) * chunkWidth d ∧
    (writesOf (eventTrace start (chunkWidth d) n)).getLast?
      = some (start + (n : Int) * chunkWidth d) ∧
    (∀ t : Int,
      coveredBy (windowsOf (eventTrace start (chunkWidth d) n)) t = true
        ↔ start ≤ t ∧ t < start + (n : Int) * chunkWidth d)

/-- C1 (amended): for every start cursor below the fixed upper bound now
and every positive chunk_days d, request_records issues one request per
window, the windows are contiguous, non-overlapping and strictly
increasing of the form from start + i * w to start + (i + 1) * w, and
the final persisted cursor is the smallest boundary start + n * w at or
beyond now; the union of the windows is exactly the interval from start
to start + n * w, which contains the interval from start to now but can
extend beyond now, because get_url_params does not clip date_until at
now. -/
theorem C1_windows (start now d : Int) (hlt : start < now) (hd : 0 < d) :
    WindowCoverage start now d := by
  have hw : 0 < chunkWidth d := by
    have : (0 : Int) < 86400 := by norm_num
    exact mul_pos hd this
  obtain ⟨k, hgood, hcase⟩ :=
    requestRecords_spec now (chunkWidth d) (fun _ => false) hw
      ((now - start).toNat + 1) start (by omega)
  rcases hcase with ⟨-, hfls, -⟩ | ⟨hnow, heq⟩
  · simp at hfls
  · have hk : 0 < k := by
      rcases Nat.eq_zero_or_pos k with hk0 | hk
      · subst hk0
        simp at hnow
        omega
      · exact hk
    refine ⟨k, hk, heq, windowsOf_eventTrace start (chunkWidth d) k,
      fun i hi => (hgood i hi).1, hnow, ?_, ?_⟩
    · rw [writesOf_eventTrace]
      obtain ⟨m, rfl⟩ := Nat.exists_eq_add_of_lt hk
      rw [Nat.zero_add, List.range_succ, List.map_append]
      simp only [List.map_cons, List.map_nil]
      rw [List.getLast?_concat]
      congr 1
      push_cast
      ring
    · intro t
      rw [windowsOf_eventTrace]
      exact coveredBy_range start (chunkWidth d) hw k t

/-- Witness for C1_windows at start 0, now 1, chunk_days 1. -/
theorem C1_windows_witness :
    (0 : Int) < 1 ∧ (0 : Int) < 1 ∧ WindowCoverage 0 1 1 :=
  ⟨by norm_num, by norm_num, C1_windows 0 1 1 (by norm_num) (by norm_num)⟩

/-- C1 as stated is false: with start 0, now 1 (so start < now) and
chunk_days 1 (so the width is positive), the failure-free run requests
the single window from 0 to 86400, whose union covers the instant 5 even
though 5 is not in the claimed union, the interval from start to now. -/
theorem C1_counterexample :
    (0 : Int) < 1 ∧ (0 : Int) < 1 ∧
    coveredBy
        (windowsOf (requestRecords 2 0 1 (chunkWidth 1) (fun _ => false)).1)
        5 = true ∧
    ¬ ((0 : Int) ≤ 5 ∧ (5 : Int) < 1) := by
  refine ⟨by norm_num, by norm_num, by decide, by omega⟩

/-- The state-write discipline of a run of request_records with a fuel
bound large enough for the loop: for the number k of successful windows,
the trace is exactly, per successful window in increasing order, a
request event, a yielded event and then one writeState event carrying the
end of that window, followed, when window k exists and its request fails,
by that request event alone; so the state is written exactly once per
successfully completed window, only after its records were yielded, never
after the failed request, and the sequence of persisted cursor values is
monotonically non-decreasing. -/
def StateWriteDiscipline (start now w : Int) (fails : Int → Bool)
    (fuel : Nat) : Prop :=
  ∃ k : Nat,
    (∀ i : Nat, i < k →
      start + (i : Int) * w < now ∧ fails (start + (i : Int) * w) = false) ∧
    writesOf ((requestRecords fuel start now w fails).1)
      = (List.range k).map (fun (i : Nat) => start + (i : Int) * w + w) ∧
    (writesOf ((requestRecords fuel start now w fails).1)).Pairwise
      (· ≤ ·) ∧
    ((start + (k : Int) * w < now ∧ fails (start + (k : Int) * w) = true ∧
      (requestRecords fuel start now w fails).1
        = eventTrace start w k ++
            [Event.request (start + (k : Int) * w)
              (start + (k : Int) * w + w)] ∧
      (requestRecords fuel start now w fails).2
        = RunOutcome.aborted (start + (k : Int) * w)) ∨
     (now ≤ start + (k : Int) * w ∧
      (requestRecords fuel start now w fails).1 = eventTrace start w k ∧
      (requestRecords fuel start now w fails).2
        = RunOutcome.completed (start + (k : Int) * w)))

/-- C2: the sync state is written exactly once per successfully completed
window, only after that window was requested and its records yielded;
a window whose request fails contributes no write, so the persisted
cursor is left unchanged by a failed window and the persisted values are
monotonically non-decreasing across the run. -/
theorem C2_state_writes (start now w : Int) (fails : Int → Bool)
    (fuel : Nat) (hw : 0 < w) (hfuel : (now - start).toNat < fuel) :
    StateWriteDiscipline start now w fails fuel := by
  obtain ⟨k, hgood, hcase⟩ :=
    requestRecords_spec now w fails hw fuel start hfuel
  refine ⟨k, hgood, ?_, ?_, ?_⟩
  · rcases hcase with ⟨-, -, h3⟩ | ⟨-, h3⟩
    · rw [h3]
      simp only [writesOf_append, writesOf_eventTrace]
      simp [writesOf]
    · rw [h3]
      exact writesOf_eventTrace start w k
  · rcases hcase with ⟨-, -, h3⟩ | ⟨-, h3⟩
    · rw [h3]
      simp only [writesOf_append, writesOf_eventTrace]
      have hnil : writesOf
          [Event.request (start + (k : Int) * w)
            (start + (k : Int) * w + w)] = [] := by
        simp [writesOf]
      rw [hnil, List.append_nil]
      exact writes_pairwise start w hw.le k
    · rw [h3, writesOf_eventTrace]
      exact writes_pairwise start w hw.le k
  · rcases hcase with ⟨h1, h2, h3⟩ | ⟨h1, h3⟩
    · exact Or.inl ⟨h1, h2, congrArg Prod.fst h3, congrArg Prod.snd h3⟩
    · exact Or.inr ⟨h1, congrArg Prod.fst h3, congrArg Prod.snd h3⟩

/-- Witness for C2_state_writes: start 0, now 3, width 1, the window at
cursor 2 fails, fuel 4. -/
theorem C2_state_writes_witness :
    (0 : Int) < 1 ∧ ((3 : Int) - 0).toNat < 4 ∧
    StateWriteDiscipline 0 3 1 (fun c => c == 2) 4 :=
  ⟨by norm_num, by decide,
   C2_state_writes 0 3 1 (fun c => c == 2) 4 (by norm_num) (by decide)⟩

/-- Termination of a failure-free run: the loop completes with final
cursor start + n * w, the smallest boundary at or beyond now. -/
def LoopTermination (start now d : Int) (fuel : Nat) : Prop :=
  ∃ n : Nat,
    (requestRecords fuel start now (chunkWidth d) (fun _ => false)).2
      = RunOutcome.completed (start + (n : Int) * chunkWidth d) ∧
    now ≤ start + (n : Int) * chunkWidth d ∧
    (∀ i : Nat, i < n → start + (i : Int) * chunkWidth d < now)

/-- C3: now is a fixed parameter of requestRecords, evaluated once before
the loop (client.py line 81) and never re-evaluated per iteration; for
every starting cursor and every chunk width of at least one day, any
iteration budget beyond now - start suffices: the loop stops with a
completed outcome as soon as the cursor reaches or exceeds now, after
finitely many iterations. -/
theorem C3_terminates (start now d : Int) (fuel : Nat) (hd : 1 ≤ d)
    (hfuel : (now - start).toNat < fuel) :
    LoopTermination start now d fuel := by
  have hw : 0 < chunkWidth d := by
    have : (0 : Int) < 86400 := by norm_num
    exact mul_pos (by omega) this
  obtain ⟨k, hgood, hcase⟩ :=
    requestRecords_spec now (chunkWidth d) (fun _ => false) hw fuel start
      hfuel
  rcases hcase with ⟨-, hfls, -⟩ | ⟨hnow, heq⟩
  · simp at hfls
  · exact ⟨k, congrArg Prod.snd heq, hnow, fun i hi => (hgood i hi).1⟩

/-- Witness for C3_terminates at start 0, now 1, chunk_days 1, fuel 2. -/
theorem C3_terminates_witness :
    (1 : Int) ≤ 1 ∧ ((1 : Int) - 0).toNat < 2 ∧ LoopTermination 0 1 1 2 :=
  ⟨by norm_num, by decide,
   C3_terminates 0 1 1 2 (by norm_num) (by decide)⟩

/-- C6 fails on the code: config_jsonschema (tap.py lines 16-38) does not
declare chunk_days, so a configuration carrying chunk_days 0 (or any
negative value) passes validation as long as application_id and token are
present, and the pagination loop it then reaches never finishes: with
width chunkWidth 0 = 0 or chunkWidth (-1) < 0 and cursor 0 below now = 1,
every iteration budget is exhausted with the loop still running. -/
theorem C6_chunk_days_not_validated :
    configAccepts
        { application_id := some "app-id", token := some "secret",
          start_date := none, limit := none, chunk_days := some 0 }
      = true ∧
    (∀ fuel : Nat, ∃ c : Int,
      (requestRecords fuel 0 1 (chunkWidth 0) (fun _ => false)).2
        = RunOutcome.outOfFuel c) ∧
    (∀ fuel : Nat, ∃ c : Int,
      (requestRecords fuel 0 1 (chunkWidth (-1)) (fun _ => false)).2
        = RunOutcome.outOfFuel c) := by
  refine ⟨rfl, ?_, ?_⟩
  · intro fuel
    exact requestRecords_stuck 1 (chunkWidth 0) (fun _ => false)
      (by norm_num [chunkWidth]) (fun _ => rfl) fuel 0 (by norm_num)
  · intro fuel
    exact requestRecords_stuck 1 (chunkWidth (-1)) (fun _ => false)
      (by norm_num [chunkWidth]) (fun _ => rfl) fuel 0 (by norm_num)

theorem retryCall_step (responses : Nat → Nat) (attempt t : Nat)
    (hr : retryableStatus (responses attempt) = true) :
    retryCall responses attempt (t + 2)
      = ((retryCall responses (attempt + 1) (t + 1)).1,
         backoff_wait_generator attempt ::
           (retryCall responses (attempt + 1) (t + 1)).2) := by
  simp [retryCall, hr]

theorem retryCall_length (responses : Nat → Nat) :
    ∀ (tries attempt : Nat),
      (retryCall responses attempt tries).2.length ≤ tries - 1 := by
  intro tries
  induction tries with
  | zero =>
    intro attempt
    exact Nat.le_refl 0
  | succ triesLeft ih =>
    intro attempt
    by_cases hr : retryableStatus (responses attempt) = true
    · cases triesLeft with
      | zero => simp [retryCall, hr]
      | succ t =>
        have := ih (attempt + 1)
        rw [retryCall_step responses attempt t hr]
        simp only [List.length_cons]
        omega
    · simp [retryCall, hr]

theorem retryCall_all120 (responses : Nat → Nat) :
    ∀ (tries attempt : Nat),
      ((retryCall responses attempt tries).2.all
        (fun x => x == 120)) = true := by
  intro tries
  induction tries with
  | zero =>
    intro attempt
    rfl
  | succ triesLeft ih =>
    intro attempt
    by_cases hr : retryableStatus (responses attempt) = true
    · cases triesLeft with
      | zero => simp [retryCall, hr]
      | succ t =>
        have := ih (attempt + 1)
        rw [retryCall_step responses attempt t hr]
        simpa [backoff_wait_generator] using this
    · simp [retryCall, hr]

/-- C4: the provider-specific 202 as well as 429 and the 5xx statuses are
retryable; a request whose every attempt is retryable is re-attempted up
to the ceiling of 50 tries, with a fixed constant wait of 120 between
consecutive attempts (49 waits separate the 50 attempts), after which the
outcome is a fatal failure, not a silent skip; in every run the waits are
all the constant 120 and at most 49 of them happen. -/
theorem C4_retry_policy :
    retryableStatus 202 = true ∧ retryableStatus 429 = true ∧
    retryableStatus 500 = true ∧ retryableStatus 503 = true ∧
    retryableStatus 599 = true ∧ retryableStatus 200 = false ∧
    request_decorator (fun _ => 202)
      = (RetryResult.fatal 202, List.replicate 49 120) ∧
    request_decorator (fun _ => 429)
      = (RetryResult.fatal 429, List.replicate 49 120) ∧
    request_decorator (fun _ => 500)
      = (RetryResult.fatal 500, List.replicate 49 120) ∧
    (∀ responses : Nat → Nat,
      (request_decorator responses).2.length ≤ 49 ∧
      ((request_decorator responses).2.all (fun x => x == 120)) = true) := by
  refine ⟨by decide, by decide, by decide, by decide, by decide, by decide,
    by decide, by decide, by decide, ?_⟩
  intro responses
  exact ⟨retryCall_length responses 50 0, retryCall_all120 responses 50 0⟩

/-- C5: EventsStream.parse_response emits exactly the data rows whose
event_receive_datetime value is present, non-empty and accepted by the
datetime parser, and drops every other row, raising nothing; in
particular the body with header id,event_receive_datetime and one data
row with an empty event_receive_datetime yields zero records. -/
theorem C5_cursor_filter (pendulumParseOk : String → Bool) :
    EventsStream_parse_response pendulumParseOk
        [["id", "event_receive_datetime"], ["1", ""]] = [] ∧
    ∀ (header : List String) (data : List (List String))
      (obj : List (String × Option String)),
      obj ∈ EventsStream_parse_response pendulumParseOk (header :: data) ↔
        (obj ∈ data.map (dictRow header) ∧
         ∃ v : String, objGet obj "event_receive_datetime" = some v ∧
           v ≠ "" ∧ pendulumParseOk v = true) := by
  constructor
  · have hl : List.lookup "event_receive_datetime"
        [("id", some "1"), ("event_receive_datetime", some "")]
        = some (some "") := rfl
    have hemp : "".isEmpty = true := rfl
    simp [EventsStream_parse_response, dictRow, objGet, is_valid_datetime,
      hl, hemp]
  · intro header data obj
    simp only [EventsStream_parse_response, List.mem_filter]
    constructor
    · rintro ⟨hmem, hpred⟩
      refine ⟨hmem, ?_⟩
      cases hv : objGet obj "event_receive_datetime" with
      | none =>
        rw [hv] at hpred
        simp at hpred
      | some v =>
        rw [hv] at hpred
        simp only [Bool.and_eq_true, Bool.not_eq_true'] at hpred
        refine ⟨v, rfl, ?_, hpred.2⟩
        intro hveq
        rw [hveq] at hpred
        have hemp2 : "".isEmpty = true := rfl
        rw [hemp2] at hpred
        exact absurd hpred.1 (by decide)
    · rintro ⟨hmem, v, hv, hne, hvalid⟩
      refine ⟨hmem, ?_⟩
      rw [hv]
      have hempty : v.isEmpty = false := by
        cases h : v.isEmpty
        · rfl
        · exact absurd ((String.isEmpty_iff v).mp h) hne
      simp [hempty, is_valid_datetime, hvalid]

/-- C7 fails on the code: whenever the limit setting is present, the
walrus expression on client.py line 126 binds limit to the boolean True,
so the request carries limit=True rather than the configured value (here
the configured "100"); when the setting is absent no limit parameter is
sent. -/
theorem C7_limit_param :
    (∀ (a : String) (d : Int) (s : String) (fs : List String) (t : Int),
      (get_url_params a d (some s) fs t).lookup "limit"
        = some (ParamValue.bool true)) ∧
    (get_url_params "app-id" 1 (some "100") ["event_name"] 0).lookup "limit"
      ≠ some (ParamValue.str "100") ∧
    (∀ (a : String) (d : Int) (fs : List String) (t : Int),
      (get_url_params a d none fs t).lookup "limit" = none) := by
  refine ⟨?_, by decide, ?_⟩
  · intro a d s fs t
    simp [get_url_params, List.lookup]
  · intro a d fs t
    simp [get_url_params, List.lookup]

/-- C8: for the install_devices stream, parsing the scenario body and
applying post_process yields exactly one record with date 2024-01-01 and
install_devices 42. -/
theorem C8_install_devices :
    (statStream_parse_response sampleStatBody).map
        installDevices_post_process
      = [some (Json.obj [("date", Json.str "2024-01-01"),
                         ("install_devices", Json.num 42)])] := rfl

/-- C9 as stated is false: with no persisted cursor and no configured
start date there is no default lookback; the aggregate-stream request
builder fails outright on the missing start_date key. -/
theorem C9_counterexample :
    statStream_get_url_params "app-id" none "ym:i:installDevices"
      = Except.error "KeyError: start_date" := rfl

/-- C9 (amended): determining the start value succeeds exactly when a
persisted cursor or a configured start date is present; with neither, it
fails (pendulum.parse receives None and raises) instead of defaulting to
a lookback window. -/
theorem C9_no_default_start :
    determine_start none none
      = Except.error "TypeError: pendulum.parse(None)" ∧
    (∀ c : String, determine_start (some c) none = Except.ok c) ∧
    (∀ s : String, determine_start none (some s) = Except.ok s) :=
  ⟨rfl, fun _ => rfl, fun _ => rfl⟩

/-- C10: discovery returns exactly one stream, the events stream; the
installations and install_devices definitions are never part of it. -/
theorem C10_single_stream :
    discover_streams = [EventsStream] ∧
    discover_streams.map StreamDef.name = ["events"] ∧
    discover_streams.length = 1 ∧
    InstallationsStream ∉ discover_streams ∧
    installDevicesStream ∉ discover_streams := by
  refine ⟨rfl, rfl, rfl, by decide, by decide⟩

end TapAppmetrica
